import Mathlib

/-!
Shallow embedding of the PDF form-filling service (`src/app.py`) and proofs
about its field model, button-state normalizer, appearance synchronizer,
overlay compositor and request orchestration.
-/

set_option autoImplicit false

namespace PdfFillerApp

/-- ASCII lowering of a string, character by character: the semantics of
Python's `str.lower()` on the slash-prefixed name alphabet that button
states use (defined over the character list so that it reduces in the
kernel). -/
def py_lower (s : String) : String :=
  ⟨s.data.map Char.toLower⟩

/-- Python's `str.strip()`: drop whitespace from both ends. -/
def py_strip (s : String) : String :=
  ⟨((s.data.dropWhile Char.isWhitespace).reverse.dropWhile Char.isWhitespace).reverse⟩

/-- Python's `s.startswith("/")`, read off the character list. -/
def starts_with_slash (s : String) : Bool :=
  match s.data with
  | [] => false
  | c :: _ => c = '/'

/-- The inline slash-prefixing used throughout `app.py`:
`s if s.startswith("/") else "/" + s`. -/
def slashify (s : String) : String :=
  if starts_with_slash s then s else "/" ++ s

/-- Python's `".".join(parts)`. -/
def join_with_dots : List String → String
  | [] => ""
  | [s] => s
  | s :: rest => s ++ "." ++ join_with_dots rest

/-- One widget annotation of a button field as `_button_states` reads it:
`apN = some keys` models a widget whose `/AP` dictionary has an `/N`
sub-dictionary with the given keys (in dictionary-insertion order);
`none` models a missing or empty `/AP`, or an `/AP` without `/N`. -/
structure BtnWidget where
  apN : Option (List String)
deriving DecidableEq

/-- A button field dictionary restricted to the keys `_button_states`,
`_on_value` and `_normalize_checkbox_value` read: the raw `/_States_`
entries (`none` = key absent; `some []` behaves identically because the
source tests truthiness of the value), the `/Kids` widget list (`[]` =
absent or empty, both falsy in `field_dict.get("/Kids", []) or
[field_dict]`), and the field's own `/AP /N` keys for when the field acts
as its own single widget. -/
structure BtnField where
  statesRaw : Option (List String)
  kids : List BtnWidget
  apN : Option (List String)
deriving DecidableEq

/-- The widget list `field_dict.get("/Kids", []) or [field_dict]`. -/
def widgets_of (f : BtnField) : List BtnWidget :=
  match f.kids with
  | [] => [⟨f.apN⟩]
  | ks => ks

/-- Step 1 of `_button_states`: the slash-prefixed `/_States_` entries
(empty when the key is absent or its value falsy). -/
def declared_states (f : BtnField) : List String :=
  match f.statesRaw with
  | some raw => raw.map slashify
  | none => []

/-- The `if s not in states: states.append(s)` accumulation pattern. -/
def add_new {α : Type} [DecidableEq α] (acc : List α) (x : α) : List α :=
  if x ∈ acc then acc else acc ++ [x]

/-- `_button_states`: the declared `/_States_` entries first, then every
widget's `/AP /N` keys, slash-prefixed, appended when not already
collected. -/
def button_states (f : BtnField) : List String :=
  (widgets_of f).foldl
    (fun acc w =>
      match w.apN with
      | some keys => keys.foldl (fun acc2 k => add_new acc2 (slashify k)) acc
      | none => acc)
    (declared_states f)

/-- The widgets' appearance-state keys of a field, flattened in widget
order and slash-prefixed: the exact key sequence the `/AP` fallback loop
of `_button_states` walks (a widget without `/AP /N` contributes no
keys). -/
def ap_keys (f : BtnField) : List String :=
  (widgets_of f).flatMap (fun w => (w.apN.getD []).map slashify)

/-- `_on_value`: the first state whose lowercasing differs from "/off";
"/Yes" when there is none. -/
def on_value (f : BtnField) : String :=
  match (button_states f).find? (fun s => py_lower s != "/off") with
  | some s => s
  | none => "/Yes"

/-- A caller-supplied fill value as `_normalize_checkbox_value` receives
it: a Python boolean or a string (other JSON scalars pass through
`str(v)` and behave like their string rendering). -/
inductive FillValue where
  | boolVal (b : Bool)
  | strVal (s : String)
deriving DecidableEq

/-- `_normalize_checkbox_value`. -/
def normalize_checkbox_value (v : FillValue) (f : BtnField) : String :=
  match v with
  | .boolVal b => if b then on_value f else "/Off"
  | .strVal s =>
    let sval := py_strip s
    let low := py_lower sval
    if low ∈ ["true", "1", "yes", "y", "on"] then on_value f
    else if low ∈ ["false", "0", "no", "n", "off"] then "/Off"
    else if low = "off" then "/Off"
    else if starts_with_slash sval then sval
    else "/" ++ sval

/-- A PDF object as `_build_full_name` and `_apply_checkbox_appearances`
read it: the partial-field / widget-annotation dictionary keys `/T`,
`/Parent` (an object id into the document's object table; `get_object`
resolution is table lookup, and the `except` fallback to the raw
reference is the identity on this model), `/FT` and `/Rect`. -/
structure NodeRec where
  t : Option String
  parent : Option Nat
  ft : Option String
  rect : Option (ℚ × ℚ × ℚ × ℚ)

/-- A document as traversed by `_apply_checkbox_appearances`: the object
table and, for each page in order, the `/Annots` object ids. -/
structure DocModel where
  table : Nat → NodeRec
  pages : List (List Nat)

/-- The `while obj:` loop of `_build_full_name`, with explicit fuel:
`none` means the loop is still running after `fuel` iterations. The
source keeps no visited set, so the walk follows `/Parent` references
unconditionally (every chain node is a nonempty, hence truthy,
dictionary). Each iteration appends the current node's `/T` (when
present) and moves to the resolved `/Parent`. -/
def build_full_name_loop (tbl : Nat → NodeRec) : Nat → Option Nat → List String → Option (List String)
  | _, none, parts => some parts
  | 0, some _, _ => none
  | fuel + 1, some i, parts =>
    build_full_name_loop tbl fuel (tbl i).parent
      (match (tbl i).t with
       | some s => parts ++ [s]
       | none => parts)

/-- `_build_full_name`, fueled: run the parent walk, then
`parts.reverse()` and `".".join(parts)`. -/
def build_full_name (tbl : Nat → NodeRec) (fuel : Nat) (start : Nat) : Option String :=
  (build_full_name_loop tbl fuel (some start) []).map
    (fun parts => join_with_dots parts.reverse)

/-- A self-parent object table: object 0 carries a name token and its
`/Parent` reference resolves back to object 0 — the malformed cyclic
chain the specification's traversal guard is meant to survive. -/
def cyc_table : Nat → NodeRec :=
  fun _ => ⟨some "A", some 0, none, none⟩

/-- Field-type resolution in `_apply_checkbox_appearances`: the
annotation's own `/FT` if truthy, otherwise the immediate parent's
`/FT` (when a parent exists). -/
def ft_of (tbl : Nat → NodeRec) (a : NodeRec) : Option String :=
  if a.ft = none ∨ a.ft = some "" then
    match a.parent with
    | some pid => (tbl pid).ft
    | none => a.ft
  else a.ft

/-- The `/AS` = `/V` value `_apply_checkbox_appearances` assigns to one
annotation: its resolved type must be `/Btn`, its full name must be in
`btn_values_by_name`, and the mapped value must be truthy (nonempty). -/
def annot_assignment (d : DocModel) (fuel : Nat) (btnMap : String → Option String)
    (aid : Nat) : Option String :=
  match ft_of d.table (d.table aid) with
  | some ft =>
    if ft = "/Btn" then
      match build_full_name d.table fuel aid with
      | some nm =>
        match btnMap nm with
        | some sval => if sval = "" then none else some sval
        | none => none
      | none => none
    else none
  | none => none

/-- The rectangle one annotation contributes to `checked_by_page`:
present exactly when the annotation received a value, the value
lowercases to something other than "/off", and the annotation has a
`/Rect`. -/
def annot_checked (d : DocModel) (fuel : Nat) (btnMap : String → Option String)
    (aid : Nat) : Option (ℚ × ℚ × ℚ × ℚ) :=
  match annot_assignment d fuel btnMap aid with
  | some sval => if py_lower sval != "/off" then (d.table aid).rect else none
  | none => none

/-- Pass 1 of `_apply_checkbox_appearances` (the page/annotation loop):
the `/AS` = `/V` assignments in traversal order, and the
`checked_by_page` entries as (zero-based page index, rectangle) pairs. -/
def apply_checkbox_pass1 (d : DocModel) (fuel : Nat) (btnMap : String → Option String) :
    List (Nat × String) × List (Nat × (ℚ × ℚ × ℚ × ℚ)) :=
  (d.pages.enum.flatMap
    (fun pe => pe.2.filterMap
      (fun aid => (annot_assignment d fuel btnMap aid).map (fun s => (aid, s)))),
   d.pages.enum.flatMap
    (fun pe => pe.2.filterMap
      (fun aid => (annot_checked d fuel btnMap aid).map (fun r => (pe.1, r)))))

/-- The checkbox field of Scenarios A and B: declared states
`["/1", "/Off"]`, no kids, no appearance dictionary of its own. -/
def scenario_field : BtnField :=
  { statesRaw := some ["/1", "/Off"], kids := [], apN := none }

/-- The one-page document of Scenarios A and B: a single `/Btn`
annotation named "chk1" with a rectangle, no parent. -/
def scenario_doc : DocModel :=
  { table := fun _ => { t := some "chk1", parent := none, ft := some "/Btn",
                        rect := some (100, 600, 112, 612) }
    pages := [[0]] }

/-- The `btn_map` `fill_form` builds for Scenario A (field filled with
boolean `true`). -/
def scenario_map_true : String → Option String :=
  fun nm => if nm = "chk1" then some (normalize_checkbox_value (.boolVal true) scenario_field) else none

/-- The `btn_map` `fill_form` builds for Scenario B (field filled with
the string "Off"). -/
def scenario_map_off : String → Option String :=
  fun nm => if nm = "chk1" then some (normalize_checkbox_value (.strVal "Off") scenario_field) else none

/-- A concrete field whose declared states start with an "/Off" casing:
raw `/_States_` entries "/Off" then "1". -/
def c1_field : BtnField :=
  { statesRaw := some ["/Off", "1"], kids := [], apN := none }

/-- A concrete field carrying a declared-states list while one of its
widgets exposes an additional appearance-state key. -/
def c3_field : BtnField :=
  { statesRaw := some ["/1", "/Off"], kids := [⟨some ["/Extra"]⟩], apN := none }

/-- A widget as `_pages_of_field` reads it: its `/P` page reference,
given as the referenced page object id (`get_object` resolution is the
identity on this model, matching the `except` fallback); `none` models
a missing (falsy) `/P`. -/
structure PageRefWidget where
  p : Option Nat
deriving DecidableEq

/-- A field as `_pages_of_field` reads it: its `/Kids` and, for the
kids-less shape, the field's own `/P`. -/
structure PagesField where
  kids : List PageRefWidget
  selfP : Option Nat
deriving DecidableEq

/-- The widget list `field_dict.get("/Kids", []) or [field_dict]` for
page resolution. -/
def pages_widgets_of (f : PagesField) : List PageRefWidget :=
  match f.kids with
  | [] => [⟨f.selfP⟩]
  | ks => ks

/-- The `for i, page in enumerate(reader.pages): ... break` scan: the
1-based position of the first page equal to the resolved page object,
starting the count at `i`. -/
def enum_first_match : List Nat → Nat → Nat → Option Nat
  | [], _, _ => none
  | pg :: rest, pobj, i =>
    if pg = pobj then some (i + 1) else enum_first_match rest pobj (i + 1)

/-- The first 1-based page index whose page object equals `pobj`. -/
def first_page_match (pages : List Nat) (pobj : Nat) : Option Nat :=
  enum_first_match pages pobj 0

/-- `_pages_of_field`: walk the widgets, skip a missing `/P`, find the
first matching page, and append its 1-based number when new. -/
def pages_of_field (pages : List Nat) (f : PagesField) : List Nat :=
  (pages_widgets_of f).foldl
    (fun acc w =>
      match w.p with
      | none => acc
      | some pobj =>
        match first_page_match pages pobj with
        | some pnum => add_new acc pnum
        | none => acc)
    []

/-- The raw sequence of first-match page numbers of the field's
resolvable widgets, before de-duplication. -/
def page_hits (pages : List Nat) (f : PagesField) : List Nat :=
  (pages_widgets_of f).filterMap (fun w => w.p.bind (first_page_match pages))

/-- A concrete field for exercising `_pages_of_field`: two widgets on
page object 20, one widget with no `/P`, one widget on page object 10. -/
def c8_field : PagesField :=
  { kids := [⟨some 20⟩, ⟨none⟩, ⟨some 20⟩, ⟨some 10⟩], selfP := none }

/-- One entry of the `__overlays` list as `_apply_text_overlays` reads
it; `none` components model absent JSON keys (the defaults are applied
at the read sites, as in the source). -/
structure OverlayItem where
  page : Option Int
  x : Option ℚ
  y : Option ℚ
  text : Option String
  fontSize : Option ℚ
  bold : Option Bool
deriving DecidableEq

/-- The `set_xy` + `cell` pair emitted for one overlay item: position,
cell width 0, cell height = font size, style ("B" when bold), text. -/
structure DrawCell where
  x : ℚ
  y : ℚ
  w : ℚ
  h : ℚ
  style : String
  text : String
deriving DecidableEq

/-- The item loop body of `_apply_text_overlays`: defaults x = 0, y = 0,
text = "", fontSize = 8, bold = false; `y_fpdf = h_pt - y_pdf`; then
`set_xy(x, y_fpdf - font_size * 0.4)` and `cell(0, font_size, text)`.
The float literal 0.4 is the rational 2/5. -/
def overlay_draw_cell (hPt : ℚ) (item : OverlayItem) : DrawCell :=
  { x := item.x.getD 0
    y := (hPt - item.y.getD 0) - (item.fontSize.getD 8) * (2/5)
    w := 0
    h := item.fontSize.getD 8
    style := if item.bold.getD false then "B" else ""
    text := item.text.getD "" }

/-- Append an overlay item to its page's group, keeping the dict's
insertion order (`by_page.setdefault(pg, []).append(ov)`). -/
def upsert_group (acc : List (Int × List OverlayItem)) (pg : Int) (ov : OverlayItem) :
    List (Int × List OverlayItem) :=
  match acc with
  | [] => [(pg, [ov])]
  | (k, items) :: rest =>
    if k = pg then (k, items ++ [ov]) :: rest
    else (k, items) :: upsert_group rest pg ov

/-- The grouping loop of `_apply_text_overlays`:
`pg = ov.get("page", 1) - 1` (zero-based), grouped in insertion order. -/
def group_by_page (overlays : List OverlayItem) : List (Int × List OverlayItem) :=
  overlays.foldl (fun acc ov => upsert_group acc ((ov.page.getD 1) - 1) ov) []

/-- `_apply_text_overlays` as draw calls: for each page group whose index
is in range, the canvas cells drawn on that page's overlay (the page's
height drives the coordinate conversion). Out-of-range groups are
skipped (`if page_idx < 0 or page_idx >= len(writer.pages): continue`). -/
def apply_text_overlays (pageHeights : List ℚ) (overlays : List OverlayItem) :
    List (Int × List DrawCell) :=
  (group_by_page overlays).filterMap
    (fun g =>
      if g.1 < 0 then none
      else
        match pageHeights[g.1.toNat]? with
        | some hPt => some (g.1, g.2.map (overlay_draw_cell hPt))
        | none => none)

/-- Scenario C's overlay instruction:
`{page:1, x:100, y:700, text:"Hello", fontSize:10}`. -/
def c6_item : OverlayItem :=
  { page := some 1, x := some 100, y := some 700, text := some "Hello",
    fontSize := some 10, bold := none }

/-- The externally observable steps of the `fill_form` pipeline that the
error-handling contract orders: parsing the PDF upload and parsing the
JSON upload. -/
inductive FillStep where
  | parsePdf
  | parseJson
deriving DecidableEq

/-- The response class of a `fill_form` request: a streamed document, an
HTTPException raised outside the `try` (client error), or the
HTTPException(500, ...) the catch-all `except Exception` builds, whose
detail names the caught exception type. -/
inductive FillOutcome where
  | streamOk
  | clientError (status : Nat) (detail : String)
  | serverError (status : Nat) (excName : String)
deriving DecidableEq

/-- A `fill_form` request abstracted to what its control flow reads: the
two declared content types, whether `PdfReader` succeeds on the PDF
upload, whether `json.loads` succeeds on the data upload, and whether
the decoded JSON value is an object. -/
structure FillReqModel where
  fileCT : String
  dataCT : String
  pdfParses : Bool
  jsonParses : Bool
  jsonIsObj : Bool
deriving DecidableEq

/-- The control flow of the `fill_form` endpoint. The content-type
checks raise HTTPException(400) before the `try` block. Everything
else runs inside `try: ... except Exception as e: raise
HTTPException(status_code=500, detail=f"... {type(e).__name__} - {e}")`;
since `fastapi.HTTPException` is an `Exception` subclass, the
`raise HTTPException(status_code=400, detail="El JSON debe ser un
objeto.")` guarding the `isinstance(form_data, dict)` check is itself
caught there and re-raised as a 500 naming `HTTPException`. `PdfReader`
runs on the PDF upload (step `parsePdf`) before `json.loads` runs on the
data upload (step `parseJson`). -/
def fill_form_flow (r : FillReqModel) : List FillStep × FillOutcome :=
  if r.fileCT ≠ "application/pdf" then
    ([], .clientError 400 "El archivo 'file' debe ser un PDF.")
  else if r.dataCT ≠ "application/json" then
    ([], .clientError 400 "El archivo 'data' debe ser un JSON.")
  else if r.pdfParses = false then
    ([.parsePdf], .serverError 500 "PdfReadError")
  else if r.jsonParses = false then
    ([.parsePdf, .parseJson], .serverError 500 "JSONDecodeError")
  else if r.jsonIsObj = false then
    ([.parsePdf, .parseJson], .serverError 500 "HTTPException")
  else
    ([.parsePdf, .parseJson], .streamOk)

/-- A well-typed `fill_form` request whose JSON body parses but is not
an object (for example the array `[1, 2, 3]`). -/
def c5_req : FillReqModel :=
  { fileCT := "application/pdf", dataCT := "application/json",
    pdfParses := true, jsonParses := true, jsonIsObj := false }

/-- Opaque per-page content for the header-stamping model: pre-existing
content streams are `original`; merged header-overlay content is
`headerText`. -/
inductive ContentItem where
  | original (id : Nat)
  | headerText (text : String)
deriving DecidableEq

/-- A page as `stamp_header` consumes it: mediabox width and height in
points, plus its content stream. -/
structure PageModel where
  width : ℚ
  height : ℚ
  content : List ContentItem
deriving DecidableEq

/-- `width_pt * 25.4 / 72`, the point-to-millimetre conversion of
`_create_header_overlay` (25.4 is the rational 254/10). -/
def pt_to_mm (x : ℚ) : ℚ := x * (254/10) / 72

/-- The single-page overlay `_create_header_overlay` produces, as
re-parsed by `PdfReader`: its size back in points, and only the gray
centred header text as content. The FPDF rasterization engine is an
external collaborator; modelled from the spec, it yields a canvas of
exactly the requested physical size bearing the requested text. -/
structure OverlayPageModel where
  width : ℚ
  height : ℚ
  content : List ContentItem
deriving DecidableEq

/-- `_create_header_overlay`: an FPDF canvas of (w_mm, h_mm) with the
header text; re-parsed, its page measures the same size in points. -/
def create_header_overlay (wPt hPt : ℚ) (text : String) : OverlayPageModel :=
  { width := pt_to_mm wPt * 72 / (254/10)
    height := pt_to_mm hPt * 72 / (254/10)
    content := [.headerText text] }

/-- Modelled from the spec: pypdf's `page.merge_page(overlay_page)` (an
external collaborator) composites the overlay page's content onto the
target page after its existing content, preserving the target page's
declared size and prior content. -/
def merge_page (p : PageModel) (ov : OverlayPageModel) : PageModel :=
  { width := p.width, height := p.height, content := p.content ++ ov.content }

/-- The page loop of `stamp_header`: for each page of the reader in
order, build a header overlay sized to that page, merge it onto the
page, and add the page to the writer. -/
def stamp_header (pages : List PageModel) (text : String) : List PageModel :=
  pages.map (fun p => merge_page p (create_header_overlay p.width p.height text))

/-- A three-page input document for the stamping scenario. -/
def c9_pages : List PageModel :=
  [⟨612, 792, [.original 0]⟩, ⟨612, 792, [.original 1]⟩, ⟨595, 842, [.original 2]⟩]

/-- A form field as the `fill_form` mapping construction consumes it:
its fully-qualified name (the key of `reader.get_fields()`), its `/FT`,
its stored value, and the button-field view the normalizer reads. -/
structure FormFieldModel where
  name : String
  ft : Option String
  value : Option FillValue
  btn : BtnField
deriving DecidableEq

/-- `form_data.pop("__overlays", None)` on the decoded JSON object
(unique keys): the popped value and the remaining mapping. An
`__overlays` value is really a list of overlay instructions; only its
removal matters here, so the value is kept opaque. -/
def pop_overlays (formData : List (String × FillValue)) :
    Option FillValue × List (String × FillValue) :=
  (formData.lookup "__overlays", formData.filter (fun kv => kv.1 != "__overlays"))

/-- The mapping/btn_map construction loop of `fill_form` (run after the
`__overlays` pop): every field named in the remaining data gets its
supplied value, passed through `_normalize_checkbox_value` when the
field's `/FT` is `/Btn`. -/
def build_mapping (fields : List FormFieldModel) (formData : List (String × FillValue)) :
    List (String × FillValue) :=
  fields.filterMap
    (fun f =>
      match formData.lookup f.name with
      | some v =>
        if f.ft = some "/Btn" then some (f.name, .strVal (normalize_checkbox_value v f.btn))
        else some (f.name, v)
      | none => none)

/-- Modelled from the spec: pypdf's `update_page_form_field_values` (an
external collaborator) assigns to each field named in the mapping the
mapped value and leaves every other field's stored value untouched. -/
def update_field (mapping : List (String × FillValue)) (f : FormFieldModel) : FormFieldModel :=
  match mapping.lookup f.name with
  | some v => { f with value := some v }
  | none => f

/-- The `fill_form` pipeline restricted to field values: pop the
reserved `__overlays` key, build the mapping from the remaining data,
and update every field. -/
def fill_form_fields (fields : List FormFieldModel) (formData : List (String × FillValue)) :
    List FormFieldModel :=
  fields.map (update_field (build_mapping fields (pop_overlays formData).2))

/-- A document whose only form field is literally named `__overlays`. -/
def c10_fields : List FormFieldModel :=
  [{ name := "__overlays", ft := some "/Tx", value := some (.strVal "orig"),
     btn := ⟨none, [], none⟩ }]

/-- A fill mapping that targets the `__overlays` name with a string. -/
def c10_data : List (String × FillValue) :=
  [("__overlays", .strVal "hacked")]

theorem mem_add_new {α : Type} [DecidableEq α] (acc : List α) (y x : α) :
    x ∈ add_new acc y ↔ x ∈ acc ∨ x = y := by
  unfold add_new
  by_cases h : y ∈ acc
  · simp only [if_pos h]
    exact ⟨Or.inl, fun hx => hx.elim id (fun he => he ▸ h)⟩
  · simp [if_neg h]

theorem mem_foldl_add_new {α : Type} [DecidableEq α] (l : List α) (acc : List α) (x : α) :
    x ∈ l.foldl add_new acc ↔ x ∈ acc ∨ x ∈ l := by
  induction l generalizing acc with
  | nil => simp
  | cons y l ih =>
    rw [List.foldl_cons, ih, mem_add_new, List.mem_cons]
    tauto

theorem nodup_add_new {α : Type} [DecidableEq α] (acc : List α) (y : α) (h : acc.Nodup) :
    (add_new acc y).Nodup := by
  unfold add_new
  by_cases hy : y ∈ acc
  · simpa [if_pos hy] using h
  · rw [if_neg hy]
    refine List.Nodup.append h (List.nodup_singleton y) ?_
    intro a ha hay
    rw [List.mem_singleton] at hay
    exact hy (hay ▸ ha)

theorem nodup_foldl_add_new {α : Type} [DecidableEq α] (l : List α) (acc : List α)
    (h : acc.Nodup) : (l.foldl add_new acc).Nodup := by
  induction l generalizing acc with
  | nil => simpa
  | cons y l ih =>
    rw [List.foldl_cons]
    exact ih _ (nodup_add_new acc y h)

theorem foldl_add_new_append {α : Type} [DecidableEq α] (l : List α) (acc : List α) :
    ∃ extra, l.foldl add_new acc = acc ++ extra ∧ extra.Sublist l ∧
      (∀ x ∈ extra, x ∉ acc) ∧ extra.Nodup := by
  induction l generalizing acc with
  | nil => exact ⟨[], by simp⟩
  | cons y l ih =>
    rw [List.foldl_cons]
    by_cases hy : y ∈ acc
    · obtain ⟨extra, h1, h2, h3, h4⟩ := ih acc
      exact ⟨extra, by simpa [add_new, if_pos hy] using h1, h2.cons y, h3, h4⟩
    · obtain ⟨extra, h1, h2, h3, h4⟩ := ih (acc ++ [y])
      refine ⟨y :: extra, ?_, h2.cons₂ y, ?_, ?_⟩
      · rw [show add_new acc y = acc ++ [y] from if_neg hy, h1, List.append_assoc]
        rfl
      · intro x hx
        rcases List.mem_cons.mp hx with h | h
        · exact h ▸ hy
        · intro hmem
          exact h3 x h (List.mem_append_left _ hmem)
      · rw [List.nodup_cons]
        refine ⟨?_, h4⟩
        intro hyextra
        exact h3 y hyextra (List.mem_append_right _ (by simp))

theorem find?_pred_first {α : Type} (p : α → Bool) (pre : List α) (s : α) (post : List α)
    (hpre : ∀ t ∈ pre, p t = false) (hs : p s = true) :
    (pre ++ s :: post).find? p = some s := by
  induction pre with
  | nil =>
    rw [List.nil_append]
    exact List.find?_cons_of_pos post hs
  | cons a pre ih =>
    have ha : p a = false := hpre a (List.mem_cons_self a pre)
    rw [List.cons_append, List.find?_cons_of_neg _ (by simp [ha])]
    exact ih (fun t ht => hpre t (List.mem_cons_of_mem a ht))

/-- C1: for every button field, `on_value` returns the first entry of its
legal-state list whose case-insensitive comparison with "/Off" fails,
and "/Yes" when every entry (in particular, when the list is empty or
holds only "/Off" in some casing) lowercases to "/off". -/
theorem c1_on_value_first_non_off (f : BtnField) :
    ((∀ s ∈ button_states f, py_lower s = "/off") → on_value f = "/Yes") ∧
    (∀ pre s post, button_states f = pre ++ s :: post →
      (∀ t ∈ pre, py_lower t = "/off") → py_lower s ≠ "/off" → on_value f = s) := by
  constructor
  · intro hall
    unfold on_value
    have hnone : (button_states f).find? (fun s => py_lower s != "/off") = none := by
      rw [List.find?_eq_none]
      intro x hx
      simp only [bne_iff_ne, ne_eq, not_not]
      exact hall x hx
    rw [hnone]
  · intro pre s post heq hpre hs
    have hfind : (button_states f).find? (fun t => py_lower t != "/off") = some s := by
      rw [heq]
      refine find?_pred_first _ pre s post ?_ ?_
      · intro t ht
        have hlow := hpre t ht
        simp [hlow]
      · simpa [bne_iff_ne] using hs
    unfold on_value
    rw [hfind]

/-- C1 witness: the field declaring `["/Off", "1"]` has on-value "/1". -/
theorem c1_witness : on_value c1_field = "/1" :=
  (c1_on_value_first_non_off c1_field).2 ["/Off"] "/1" [] rfl (by decide) (by decide)

/-- C7: for every button field, normalizing the boolean `true`, the
string "on" and the string "Yes" all yield `on_value` of the field,
whatever the field's declared state vocabulary. -/
theorem c7_normalize_shortcuts (f : BtnField) :
    normalize_checkbox_value (.boolVal true) f = on_value f ∧
    normalize_checkbox_value (.strVal "on") f = on_value f ∧
    normalize_checkbox_value (.strVal "Yes") f = on_value f :=
  ⟨rfl, rfl, rfl⟩

/-- C3 counterexample: a field with declared states `["/1", "/Off"]`
whose widget exposes the extra appearance key "/Extra"; `_button_states`
does not return exactly the slash-prefixed declared list — the widget
appearance dictionaries are consulted even though a declared-states list
is present. -/
theorem c3_counterexample :
    c3_field.statesRaw = some ["/1", "/Off"] ∧
    button_states c3_field = ["/1", "/Off", "/Extra"] ∧
    button_states c3_field ≠ ["/1", "/Off"].map slashify := by
  refine ⟨rfl, rfl, ?_⟩
  decide

/-- The nested widget loop of `_button_states` equals the de-duplicating
fold of the flattened appearance-key sequence over the declared states. -/
theorem button_states_eq_flat (f : BtnField) :
    button_states f = (ap_keys f).foldl add_new (declared_states f) := by
  unfold button_states ap_keys
  generalize widgets_of f = ws
  generalize declared_states f = acc
  induction ws generalizing acc with
  | nil => rfl
  | cons w ws ih =>
    rw [List.foldl_cons, List.flatMap_cons, List.foldl_append]
    cases hw : w.apN with
    | none =>
      simp only [hw, Option.getD_none, List.map_nil, List.foldl_nil]
      exact ih acc
    | some keys =>
      simp only [hw, Option.getD_some]
      rw [← List.foldl_map]
      exact ih _

/-- C3 (amended): for every button field carrying a declared-states
list, `legal_states` begins with exactly that list slash-prefixed, and
the widgets' appearance-state dictionaries are consulted
unconditionally: the result is the de-duplicating fold of the flattened
widget appearance-key sequence over the declared list, so the appended
tail is duplicate-free, is a sublist of that key sequence (first-seen
order across widgets), and holds exactly the appearance keys not
already collected in the declared list. -/
theorem c3_declared_states_prefix (f : BtnField) (raw : List String)
    (h : f.statesRaw = some raw) :
    button_states f = (ap_keys f).foldl add_new (raw.map slashify) ∧
    ∃ extra, button_states f = raw.map slashify ++ extra ∧
      extra.Nodup ∧
      extra.Sublist (ap_keys f) ∧
      (∀ s, s ∈ extra ↔ (s ∈ ap_keys f ∧ s ∉ raw.map slashify)) := by
  have hdecl : declared_states f = raw.map slashify := by
    simp [declared_states, h]
  have hflat : button_states f = (ap_keys f).foldl add_new (raw.map slashify) := by
    rw [button_states_eq_flat, hdecl]
  obtain ⟨extra, hex, hsub, hnotin, hnd⟩ := foldl_add_new_append (ap_keys f) (raw.map slashify)
  refine ⟨hflat, extra, by rw [hflat, hex], hnd, hsub, ?_⟩
  intro s
  constructor
  · intro hs
    exact ⟨hsub.subset hs, hnotin s hs⟩
  · rintro ⟨hl, hna⟩
    have hmem : s ∈ (ap_keys f).foldl add_new (raw.map slashify) :=
      (mem_foldl_add_new _ _ s).mpr (Or.inr hl)
    rw [hex] at hmem
    rcases List.mem_append.mp hmem with hmem2 | hmem2
    · exact absurd hmem2 hna
    · exact hmem2

/-- C3 amended witness: the declared list `["/1", "/Off"]` of `c3_field`
heads its state list; the tail is the duplicate-free, order-preserving
selection of the widget appearance keys not already declared. -/
theorem c3_amended_witness :
    button_states c3_field = (ap_keys c3_field).foldl add_new (["/1", "/Off"].map slashify) ∧
    ∃ extra, button_states c3_field = ["/1", "/Off"].map slashify ++ extra ∧
      extra.Nodup ∧
      extra.Sublist (ap_keys c3_field) ∧
      (∀ s, s ∈ extra ↔ (s ∈ ap_keys c3_field ∧ s ∉ ["/1", "/Off"].map slashify)) :=
  c3_declared_states_prefix c3_field ["/1", "/Off"] rfl

/-- On the self-parent table, the `_build_full_name` loop is still
running whatever the iteration bound: no finite fuel reaches the exit. -/
theorem build_full_name_loop_cyc (fuel : Nat) (parts : List String) :
    build_full_name_loop cyc_table fuel (some 0) parts = none := by
  induction fuel generalizing parts with
  | zero => rfl
  | succ n ih =>
    rw [build_full_name_loop]
    exact ih (parts ++ ["A"])

/-- C4: `_build_full_name` keeps no visited set, so on a malformed
document whose `/Parent` chain is cyclic (here: a node that is its own
parent) the traversal never terminates — for every iteration bound the
loop has not exited. -/
theorem c4_full_name_diverges_on_cycle (fuel : Nat) :
    build_full_name cyc_table fuel 0 = none := by
  unfold build_full_name
  rw [build_full_name_loop_cyc]
  rfl

/-- C2: in `_apply_checkbox_appearances`, every button-type annotation
whose fully-qualified name is mapped gets the mapped value as `/AS` and
`/V`, and its rectangle enters the per-page checked set (keyed by the
zero-based page index) exactly when that value lowercases to something
other than "/off"; concretely, the `["/1", "/Off"]` checkbox filled with
`true` stores "/1" and records its rectangle (Scenario A), while the
same field filled with "Off" stores "/Off" and records nothing
(Scenario B). -/
theorem c2_checked_rect_iff :
    (∀ (d : DocModel) (fuel : Nat) (btnMap : String → Option String)
        (pidx : Nat) (annots : List Nat) (aid : Nat) (sval : String),
      (pidx, annots) ∈ d.pages.enum → aid ∈ annots →
      annot_assignment d fuel btnMap aid = some sval →
      ((aid, sval) ∈ (apply_checkbox_pass1 d fuel btnMap).1 ∧
       (∀ r, annot_checked d fuel btnMap aid = some r ↔
          (py_lower sval ≠ "/off" ∧ (d.table aid).rect = some r)) ∧
       (∀ r, (d.table aid).rect = some r → py_lower sval ≠ "/off" →
          (pidx, r) ∈ (apply_checkbox_pass1 d fuel btnMap).2) ∧
       (py_lower sval = "/off" → annot_checked d fuel btnMap aid = none))) ∧
    (normalize_checkbox_value (.boolVal true) scenario_field = "/1" ∧
      apply_checkbox_pass1 scenario_doc 2 scenario_map_true =
        ([(0, "/1")], [(0, (100, 600, 112, 612))])) ∧
    (normalize_checkbox_value (.strVal "Off") scenario_field = "/Off" ∧
      apply_checkbox_pass1 scenario_doc 2 scenario_map_off =
        ([(0, "/Off")], [])) := by
  refine ⟨?_, ⟨rfl, rfl⟩, ⟨rfl, rfl⟩⟩
  intro d fuel btnMap pidx annots aid sval hpage haid hassg
  refine ⟨?_, ?_, ?_, ?_⟩
  · refine List.mem_flatMap.mpr ⟨(pidx, annots), hpage, ?_⟩
    refine List.mem_filterMap.mpr ⟨aid, haid, ?_⟩
    rw [hassg]
    rfl
  · intro r
    unfold annot_checked
    rw [hassg]
    by_cases h : py_lower sval = "/off"
    · simp [h]
    · simp [h, bne_iff_ne]
  · intro r hrect hne
    refine List.mem_flatMap.mpr ⟨(pidx, annots), hpage, ?_⟩
    refine List.mem_filterMap.mpr ⟨aid, haid, ?_⟩
    unfold annot_checked
    rw [hassg]
    simp [hne, bne_iff_ne, hrect]
  · intro h
    unfold annot_checked
    rw [hassg]
    simp [h]

/-- C2 witness: in Scenario A the checked set of page 0 contains the
checkbox's rectangle, obtained through the general statement. -/
theorem c2_witness :
    (0, ((100 : ℚ), (600 : ℚ), (112 : ℚ), (612 : ℚ))) ∈
      (apply_checkbox_pass1 scenario_doc 2 scenario_map_true).2 :=
  ((c2_checked_rect_iff.1 scenario_doc 2 scenario_map_true 0 [0] 0 "/1"
      (by decide) (by decide) rfl).2.2.1) (100, 600, 112, 612) rfl (by decide)


/-- The widget fold of `_pages_of_field` equals the de-duplicating fold
over the raw first-match sequence. -/
theorem pages_of_field_eq_dedup (pages : List Nat) (f : PagesField) :
    pages_of_field pages f = (page_hits pages f).foldl add_new [] := by
  unfold pages_of_field page_hits
  generalize pages_widgets_of f = ws
  suffices h : ∀ (ws : List PageRefWidget) (acc : List Nat),
      ws.foldl
        (fun acc w =>
          match w.p with
          | none => acc
          | some pobj =>
            match first_page_match pages pobj with
            | some pnum => add_new acc pnum
            | none => acc)
        acc
      = (ws.filterMap (fun w => w.p.bind (first_page_match pages))).foldl add_new acc by
    exact h ws []
  intro ws
  induction ws with
  | nil => intro acc; rfl
  | cons w ws ih =>
    intro acc
    rw [List.foldl_cons, List.filterMap_cons]
    cases hw : w.p with
    | none => simpa using ih acc
    | some pobj =>
      cases hm : first_page_match pages pobj with
      | none => simpa [Option.bind, hm] using ih acc
      | some pnum => simpa [Option.bind, hm] using ih (add_new acc pnum)

/-- The enumerate-and-break scan returns a 1-based position within the
page list, offset by the starting counter. -/
theorem enum_first_match_bounds (pobj : Nat) :
    ∀ (pages : List Nat) (i p : Nat),
      enum_first_match pages pobj i = some p → i + 1 ≤ p ∧ p ≤ i + pages.length := by
  intro pages
  induction pages with
  | nil =>
    intro i p h
    simp [enum_first_match] at h
  | cons pg rest ih =>
    intro i p h
    unfold enum_first_match at h
    by_cases hpg : pg = pobj
    · rw [if_pos hpg] at h
      cases h
      simp
    · rw [if_neg hpg] at h
      have := ih (i + 1) p h
      constructor
      · omega
      · simp only [List.length_cons]
        omega

/-- C8: `_pages_of_field` is the order-preserving de-duplication of the
raw widget-match sequence: its result has no duplicates, is a sublist of
(hence in first-occurrence order of) the raw hits, contains exactly the
hit pages, and every returned number is a 1-based index into the page
list; widgets with an absent or unmatched page reference contribute no
hit at all. -/
theorem c8_pages_of_field_spec (pages : List Nat) (f : PagesField) :
    pages_of_field pages f = (page_hits pages f).foldl add_new [] ∧
    (pages_of_field pages f).Nodup ∧
    (pages_of_field pages f).Sublist (page_hits pages f) ∧
    (∀ p, p ∈ pages_of_field pages f ↔ p ∈ page_hits pages f) ∧
    (∀ p ∈ pages_of_field pages f, 1 ≤ p ∧ p ≤ pages.length) := by
  have heq := pages_of_field_eq_dedup pages f
  obtain ⟨extra, hex, hsub, _⟩ := foldl_add_new_append (page_hits pages f) []
  rw [List.nil_append] at hex
  refine ⟨heq, ?_, ?_, ?_, ?_⟩
  · rw [heq]
    exact nodup_foldl_add_new _ _ List.nodup_nil
  · rw [heq, hex]
    exact hsub
  · intro p
    rw [heq, mem_foldl_add_new]
    simp
  · intro p hp
    have hhit : p ∈ page_hits pages f := by
      have := (mem_foldl_add_new (page_hits pages f) [] p).mp (heq ▸ hp)
      simpa using this
    obtain ⟨w, _, hw⟩ := List.mem_filterMap.mp hhit
    obtain ⟨pobj, _, hfpm⟩ := Option.bind_eq_some.mp hw
    have := enum_first_match_bounds pobj pages 0 p hfpm
    omega

/-- C8 witness: on a three-page document, `c8_field` (widgets on page
objects 20, none, 20, 10) yields a member page number within bounds. -/
theorem c8_witness : 1 ≤ 2 ∧ 2 ≤ ([10, 20, 30] : List Nat).length :=
  (c8_pages_of_field_spec [10, 20, 30] c8_field).2.2.2.2 2 (by decide)


/-- C9: header stamping returns exactly as many pages as it was given,
in order: the page at each index keeps its original size and content and
gains only the stamped header text; merging the overlay never changes
page count or page size. -/
theorem c9_stamp_header_preserves (pages : List PageModel) (text : String) :
    (stamp_header pages text).length = pages.length ∧
    (∀ (i : Nat) (p : PageModel), pages[i]? = some p →
      (stamp_header pages text)[i]? =
        some ⟨p.width, p.height, p.content ++ [ContentItem.headerText text]⟩) := by
  constructor
  · simp [stamp_header]
  · intro i p hp
    simp [stamp_header, List.getElem?_map, hp, merge_page, create_header_overlay]

/-- C9 witness: stamping the 3-page `c9_pages` keeps 3 pages and the
middle page keeps its size and content, gaining only the header text. -/
theorem c9_witness :
    (stamp_header c9_pages "Foreign-Owned U.S. DE").length = c9_pages.length ∧
    (stamp_header c9_pages "Foreign-Owned U.S. DE")[1]? =
      some ⟨612, 792, [ContentItem.original 1] ++
        [ContentItem.headerText "Foreign-Owned U.S. DE"]⟩ :=
  ⟨(c9_stamp_header_preserves c9_pages "Foreign-Owned U.S. DE").1,
   (c9_stamp_header_preserves c9_pages "Foreign-Owned U.S. DE").2 1
     ⟨612, 792, [ContentItem.original 1]⟩ rfl⟩

/-- Filtering out the `__overlays` key leaves nothing for a lookup of
that key to find. -/
theorem lookup_overlays_filter_none (formData : List (String × FillValue)) :
    ((formData.filter (fun kv => kv.1 != "__overlays")).lookup "__overlays") = none := by
  induction formData with
  | nil => rfl
  | cons kv rest ih =>
    rw [List.filter_cons]
    by_cases h : kv.1 = "__overlays"
    · simp only [h, bne_self_eq_false, if_neg Bool.false_ne_true]
      exact ih
    · have hb : (kv.1 != "__overlays") = true := by simpa [bne_iff_ne] using h
      rw [if_pos hb, List.lookup_cons]
      have hbeq : ("__overlays" == kv.1) = false := by
        rw [beq_eq_false_iff_ne]
        exact fun he => h he.symm
      rw [hbeq]
      exact ih

/-- A name absent from the remaining form data never enters the field
mapping. -/
theorem build_mapping_lookup_none (fields : List FormFieldModel)
    (fd : List (String × FillValue)) (nm : String) (h : fd.lookup nm = none) :
    (build_mapping fields fd).lookup nm = none := by
  induction fields with
  | nil => rfl
  | cons f rest ih =>
    unfold build_mapping
    rw [List.filterMap_cons]
    cases hf : fd.lookup f.name with
    | none => exact ih
    | some v =>
      have hne : (nm == f.name) = false := by
        rw [beq_eq_false_iff_ne]
        intro he
        rw [← he, h] at hf
        exact Option.noConfusion hf
      by_cases hft : f.ft = some "/Btn"
      · simp only [hf, if_pos hft]
        rw [List.lookup_cons, hne]
        exact ih
      · simp only [hf, if_neg hft]
        rw [List.lookup_cons, hne]
        exact ih

/-- C10: `fill_form` removes the reserved key "__overlays" from the form
data before field matching, so the built mapping never carries that name
and a form field literally named "__overlays" keeps its stored value
unchanged, whatever the fill mapping contains. -/
theorem c10_overlays_key_never_fills (fields : List FormFieldModel)
    (formData : List (String × FillValue)) :
    (build_mapping fields (pop_overlays formData).2).lookup "__overlays" = none ∧
    (∀ (i : Nat) (f : FormFieldModel), fields[i]? = some f → f.name = "__overlays" →
      (fill_form_fields fields formData)[i]? = some f) := by
  have hnone : (build_mapping fields (pop_overlays formData).2).lookup "__overlays" = none :=
    build_mapping_lookup_none fields (pop_overlays formData).2 "__overlays"
      (lookup_overlays_filter_none formData)
  refine ⟨hnone, ?_⟩
  intro i f hf hname
  unfold fill_form_fields
  rw [List.getElem?_map, hf]
  show some (update_field (build_mapping fields (pop_overlays formData).2) f) = some f
  unfold update_field
  rw [hname, hnone]

/-- C10 witness: the document whose only field is named "__overlays",
filled with data targeting exactly that name, keeps its original stored
value. -/
theorem c10_witness :
    (fill_form_fields c10_fields c10_data)[0]? =
      some { name := "__overlays", ft := some "/Tx", value := some (.strVal "orig"),
             btn := ⟨none, [], none⟩ } :=
  (c10_overlays_key_never_fills c10_fields c10_data).2 0
    { name := "__overlays", ft := some "/Tx", value := some (.strVal "orig"),
      btn := ⟨none, [], none⟩ } rfl rfl

/-- C5: evaluating the `fill_form` control flow at a request with the
right content types, a parseable PDF and a parseable but non-object JSON
body: the PDF is parsed first (both parse steps run before the
rejection), and the response is the catch-all's HTTPException(500) — a
server-error signal naming the swallowed HTTPException — not the
intended 400 client error. -/
theorem c5_non_object_json_rejection :
    fill_form_flow c5_req =
      ([FillStep.parsePdf, FillStep.parseJson], FillOutcome.serverError 500 "HTTPException") ∧
    FillStep.parsePdf ∈ (fill_form_flow c5_req).1 :=
  ⟨rfl, by decide⟩

/-- C6 counterexample: Scenario C's instruction on a 792-point-tall page
is drawn with its `set_xy` vertical coordinate at 88, not approximately
96: the conversion subtracts the 0.4 × font-size baseline offset from
`page_height - y = 92`. -/
theorem c6_counterexample :
    apply_text_overlays [792] [c6_item] =
      [(0, [{ x := 100, y := 88, w := 0, h := 10, style := "", text := "Hello" }])] ∧
    ¬ |(88 : ℚ) - 96| ≤ 4 ∧ |(88 : ℚ) - 96| = 8 := by
  refine ⟨?_, by norm_num, by norm_num⟩
  simp [apply_text_overlays, group_by_page, upsert_group, c6_item, overlay_draw_cell]
  norm_num

/-- C6 (amended): Scenario C's instruction is placed at canvas
y = (792 - 700) - 0.4 × 10 = 88 — top-left-origin conversion
`y_fpdf = page_height - y` followed by subtracting the 0.4 × font-size
baseline offset. -/
theorem c6_amended_overlay_y :
    (overlay_draw_cell 792 c6_item).y = (792 - 700) - (2/5) * 10 ∧
    (overlay_draw_cell 792 c6_item).y = 88 ∧
    apply_text_overlays [792] [c6_item] = [(0, [overlay_draw_cell 792 c6_item])] := by
  refine ⟨by norm_num [overlay_draw_cell, c6_item], by norm_num [overlay_draw_cell, c6_item], ?_⟩
  simp [apply_text_overlays, group_by_page, upsert_group, c6_item]


end PdfFillerApp
